import Mathlib

/-!
Verification of the connection-lifecycle and credential core of a
pluggable secrets backend: the connection cache
(builtin/logical/database/backend.go), the SQL connection producer
(plugins/helper/database/connutil/sql.go), the Active-Directory
client (helper/activedirectory/client.go) and the LDAP configuration
parser (helper/ldap/config.go).

Strings are modelled as lists of characters (`Str`) so that all
operations compute inside the kernel.  External effects (storage
reads, plugin construction, dialing, pinging, the SQL driver) are
modelled as oracle functions passed in explicitly; each embedded
operation additionally returns the list of effectful calls it made
(instances closed, handles opened, modify requests issued) so that
theorems can speak about them.
-/

namespace Vault

/-- Strings as character lists, so that everything reduces in the kernel. -/
abbrev Str := List Char

/-- `strings.Contains s sub`: `sub` occurs as a contiguous infix of `s`. -/
def strContainsSub (sub : Str) : Str → Bool
  | [] => decide (sub <+: ([] : Str))
  | c :: t => decide (sub <+: (c :: t)) || strContainsSub sub t

/-- `strings.HasPrefix s pre`. -/
def strStartsWith (s pre : Str) : Bool := decide (pre <+: s)

/-- `strings.Split s ","`: split on a separator character, keeping empty fields. -/
def splitOnSep (sep : Char) : Str → List Str
  | [] => [[]]
  | c :: t =>
    if c = sep then [] :: splitOnSep sep t
    else
      match splitOnSep sep t with
      | h :: r => (c :: h) :: r
      | [] => [[c]]

/-- `strings.ToLower` (character-wise, as for the ASCII identifiers used here). -/
def strToLower (s : Str) : Str := s.map Char.toLower

/-- Go byte-lexicographic string comparison `s < t`. -/
def strLt : Str → Str → Bool
  | [], [] => false
  | [], _ :: _ => true
  | _ :: _, [] => false
  | a :: s, b :: t => if a < b then true else if b < a then false else strLt s t

/-- Whether an `Except` value is a success (`err == nil` in Go). -/
def isOkB : Except ε α → Bool
  | .ok _ => true
  | .error _ => false

instance exceptDecEq [DecidableEq ε] [DecidableEq α] : DecidableEq (Except ε α) := fun x y =>
  match x, y with
  | .ok a, .ok b =>
    if h : a = b then .isTrue (by rw [h])
    else .isFalse (by intro hc; cases hc; exact h rfl)
  | .error a, .error b =>
    if h : a = b then .isTrue (by rw [h])
    else .isFalse (by intro hc; cases hc; exact h rfl)
  | .ok _, .error _ => .isFalse (by intro hc; cases hc)
  | .error _, .ok _ => .isFalse (by intro hc; cases hc)

namespace Database

/-!
## Connection lifecycle cache — builtin/logical/database/backend.go

The cache state is the `connections` map (name → live capability
instance).  The context, storage and lock are external; under the
exclusive lock the body of `GetConnection` runs sequentially, which is
what the embedding models.  `E` is the error type, `Cfg` the decoded
`DatabaseConfig`, `α` the capability-instance type (`dbplugin.Database`).
-/

/-- The cache's mutable state: the `b.connections` map. -/
structure DBState (α : Type) where
  connections : String → Option α

/-- Oracles for one `GetConnection(ctx, s, name)` call: the result of
`b.DatabaseConfig` for this name, of `dbplugin.PluginFactory` on the
loaded config, and of `db.Initialize(ctx, details, true)`. -/
structure GetEnv (E Cfg α : Type) where
  dbConfig : Except E Cfg
  factory : Cfg → Except E α
  initDB : α → Except E Unit

/-- `GetConnection` from backend.go lines 142–180.  Returns the call
result, the new cache state, and the list of instances that were
closed during the call.  The repeated map lookup reflects the
double-checked re-check after the lock upgrade. -/
def GetConnection (env : GetEnv E Cfg α) (st : DBState α) (name : String) :
    Except E α × DBState α × List α :=
  match st.connections name with
  | some db => (.ok db, st, [])
  | none =>
    -- lock upgraded; re-check the map
    match st.connections name with
    | some db => (.ok db, st, [])
    | none =>
      match env.dbConfig with
      | .error e => (.error e, st, [])
      | .ok cfg =>
        match env.factory cfg with
        | .error e => (.error e, st, [])
        | .ok db =>
          match env.initDB db with
          | .error e => (.error e, st, [db])
          | .ok _ =>
            (.ok db, ⟨fun k => if k = name then some db else st.connections k⟩, [])

/-- `ClearConnection` from backend.go lines 184–196.  `close` is the
instance's `Close` method.  Returns the call result and the new state. -/
def ClearConnection (close : α → Except E Unit) (st : DBState α) (name : String) :
    Except E Unit × DBState α :=
  match st.connections name with
  | none => (.ok (), st)
  | some db =>
    match close db with
    | .error e => (.error e, st)
    | .ok _ => (.ok (), ⟨fun k => if k = name then none else st.connections k⟩)

end Database

namespace ConnUtil

/-!
## SQL connection producer — plugins/helper/database/connutil/sql.go

`H` is the type of pooled handles (`*sql.DB`).  The driver
(`sql.Open`), the liveness ping (`PingContext`) and the duration
parser (`parseutil.ParseDurationSecond`) are oracles.  The embedding
of each operation returns, besides the Go results, the handles closed,
the `(driverName, connString)` pairs passed to `sql.Open`, and the
pool bounds applied via `SetMaxOpenConns`/`SetMaxIdleConns`/
`SetConnMaxLifetime`.
-/

/-- Error values of the producer.  `NotInit` is the distinguished
`connutil.ErrNotInitialized` sentinel; `VerifyWrap` is the
"error verifying connection: %s" wrapping. -/
inductive SQLErr
  | NotInit
  | EmptyURL
  | NotTemplated
  | BadLifetime (s : Str)
  | OpenFail (s : Str)
  | PingFailed
  | NilDB
  | VerifyWrap (e : SQLErr)
deriving DecidableEq

/-- The producer's fields (sql.go lines 29–42).  The Go field `Type`
is called `DType` here because `Type` is reserved in Lean.  The
interface-typed `MaxConnectionLifetimeRaw` is modelled as an optional
raw string (`none` = Go `nil`). -/
structure SQLConnectionProducer (H : Type) where
  ConnectionURL : Str
  MaxOpenConnections : Int
  MaxIdleConnections : Int
  MaxConnectionLifetimeRaw : Option Str
  Username : Str
  Password : Str
  DType : Str
  maxConnectionLifetime : Int
  Initialized : Bool
  db : Option H
deriving DecidableEq

/-- Oracles: the protocol-level ping of a handle and the driver's
`sql.Open(driverName, connString)`. -/
structure ConnEnv (H : Type) where
  ping : H → Bool
  openDB : Str → Str → Except Str H

/-- Result of one `Connection(ctx)` call: the Go return value, the
producer afterwards, handles closed, `sql.Open` calls made, and pool
bounds applied to handles. -/
structure ConnResult (H : Type) where
  res : Except SQLErr H
  prod : SQLConnectionProducer H
  closed : List H
  opened : List (Str × Str)
  poolSet : List (H × Int × Int × Int)

/-- sql.go lines 120–124: for the mssql backend, switch the driver
name to sqlserver. -/
def driverName (t : Str) : Str :=
  if t = "mssql".toList then "sqlserver".toList else t

/-- sql.go lines 129–136: for postgres URLs, append a UTC timezone
parameter, respecting an existing query string. -/
def connTimezone (conn : Str) : Str :=
  if strStartsWith conn "postgres://".toList || strStartsWith conn "postgresql://".toList then
    if conn.contains '?' then conn ++ "&timezone=utc".toList
    else conn ++ "?timezone=utc".toList
  else conn

/-- sql.go lines 126–150: the rebuild path of `Connection` after the
cached-handle check — map the driver name, adjust the connection
string, `sql.Open`, and on success store the handle and apply the
three pool bounds.  On open failure the stored handle becomes `nil`
(Go assigns `sql.Open`'s nil result to `c.db`). -/
def rebuild (env : ConnEnv H) (c : SQLConnectionProducer H) (closed : List H) :
    ConnResult H :=
  let dbType := driverName c.DType
  let conn := connTimezone c.ConnectionURL
  match env.openDB dbType conn with
  | .error e => ⟨.error (.OpenFail e), { c with db := none }, closed, [(dbType, conn)], []⟩
  | .ok h =>
    ⟨.ok h, { c with db := some h }, closed, [(dbType, conn)],
      [(h, c.MaxOpenConnections, c.MaxIdleConnections, c.maxConnectionLifetime)]⟩

/-- `Connection` from sql.go lines 105–151: fail if not yet marked
initialized; otherwise ping an existing handle and return it on
success, or close it and fall through to the rebuild. -/
def Connection (env : ConnEnv H) (c : SQLConnectionProducer H) : ConnResult H :=
  if c.Initialized = false then ⟨.error .NotInit, c, [], [], []⟩
  else
    match c.db with
    | some db => if env.ping db then ⟨.ok db, c, [], [], []⟩ else rebuild env c [db]
    | none => rebuild env c []

/-- sql.go lines 69–81: pool-bound defaulting inside `Initialize` —
max-open defaults to 2, max-idle defaults to max-open then is clamped
down to max-open, and a nil lifetime becomes the raw string "0s". -/
def applyDefaults (c : SQLConnectionProducer H) : SQLConnectionProducer H :=
  let mo := if c.MaxOpenConnections = 0 then 2 else c.MaxOpenConnections
  let mi0 := if c.MaxIdleConnections = 0 then mo else c.MaxIdleConnections
  let mi := if mi0 > mo then mo else mi0
  let raw := c.MaxConnectionLifetimeRaw.getD "0s".toList
  { c with MaxOpenConnections := mo, MaxIdleConnections := mi,
           MaxConnectionLifetimeRaw := some raw }

/-- sql.go line 59: the connection string contains both credential
placeholder tokens. -/
def templatedOK (c : SQLConnectionProducer H) : Bool :=
  strContainsSub "\x7b\x7busername\x7d\x7d".toList c.ConnectionURL &&
  strContainsSub "\x7b\x7bpassword\x7d\x7d".toList c.ConnectionURL

/-- sql.go lines 92–100: the `verifyConnection` block of `Initialize`
— obtain a handle via `Connection` and ping `c.db`; failures there are
wrapped as "error verifying connection" errors.  The `NilDB` branch
mirrors the nil dereference Go would hit if a successful `Connection`
left no handle (unreachable). -/
def verifyStep (env : ConnEnv H) (c : SQLConnectionProducer H) :
    Except SQLErr Unit × SQLConnectionProducer H :=
  let r := Connection env c
  match r.res with
  | .error e => (.error (.VerifyWrap e), r.prod)
  | .ok _ =>
    match r.prod.db with
    | some h =>
      if env.ping h then (.ok (), r.prod)
      else (.error (.VerifyWrap .PingFailed), r.prod)
    | none => (.error .NilDB, r.prod)

/-- sql.go lines 69–102: the tail of `Initialize` after the URL and
templating checks — apply defaults, parse the lifetime, mark the
producer initialized, and, when `verifyConnection` is set, run the
verification block. -/
def initAfterChecks (env : ConnEnv H) (parseDur : Str → Except Str Int)
    (c : SQLConnectionProducer H) (verifyConnection : Bool) :
    Except SQLErr Unit × SQLConnectionProducer H :=
  let c1 := applyDefaults c
  match parseDur (c1.MaxConnectionLifetimeRaw.getD "0s".toList) with
  | .error s => (.error (.BadLifetime s), c1)
  | .ok d =>
    let c2 := { c1 with maxConnectionLifetime := d, Initialized := true }
    if verifyConnection then verifyStep env c2
    else (.ok (), c2)

/-- `Initialize` from sql.go lines 44–103, applied to the producer
after the lenient `mapstructure.WeakDecode` of the config map (absent
config fields are the zero values `[]`, `0`, `none`). -/
def Initialize (env : ConnEnv H) (parseDur : Str → Except Str Int)
    (c : SQLConnectionProducer H) (verifyConnection : Bool) :
    Except SQLErr Unit × SQLConnectionProducer H :=
  if c.ConnectionURL = [] then (.error .EmptyURL, c)
  else if c.Username ≠ [] ∧ c.Password ≠ [] then
    if templatedOK c then initAfterChecks env parseDur c verifyConnection
    else (.error .NotTemplated, c)
  else initAfterChecks env parseDur c verifyConnection

/-- `Close` from sql.go lines 154–166: close any stored handle,
discard the close error, clear the handle, return nil. -/
def Close (c : SQLConnectionProducer H) :
    Except SQLErr Unit × SQLConnectionProducer H × List H :=
  (.ok (), { c with db := none },
    match c.db with
    | some h => [h]
    | none => [])

/-- A fresh, never-initialized producer configured for a postgres
target with all pool fields unset, as decoded from the minimal config
map with only `connection_url` — used as the concrete input of the C2
theorems. -/
def freshProducer : SQLConnectionProducer Nat :=
  ⟨"postgres://host/db".toList, 0, 0, none, [], [], "postgres".toList, 0, false, none⟩

/-- An environment whose driver always fails to open and whose pings
always fail — used as the concrete input of the C2 theorems. -/
def pingFailEnv : ConnEnv Nat :=
  ⟨fun _ => false, fun _ _ => .error "dial error".toList⟩

/-- An already-initialized producer with pool bounds 5/5 holding the
cached handle `1` — used as the concrete input of the C7 witness. -/
def liveProducer : SQLConnectionProducer Nat :=
  ⟨"postgres://host/db".toList, 5, 5, some "0s".toList, [], [], "postgres".toList, 0, true, some 1⟩

/-- Producer as decoded from max_open_connections=5, max_idle_connections=0. -/
def idle0Producer : SQLConnectionProducer Nat :=
  ⟨"postgres://host/db".toList, 5, 0, none, [], [], [], 0, false, none⟩

/-- Producer as decoded from max_open_connections=5, max_idle_connections=10. -/
def idle10Producer : SQLConnectionProducer Nat :=
  ⟨"postgres://host/db".toList, 5, 10, none, [], [], [], 0, false, none⟩

end ConnUtil

namespace Database

/-!
## Role record migration — backend.go lines 89–132

A stored role record is a JSON object; the decoders consult at most
the sub-object under the legacy misspelled outer key "statments" and
the one under the canonical outer key "statements", and inside them
the five field keys below.  An absent key decodes to the zero value.
-/

/-- The four statement fields of a decoded role record. -/
structure Statements where
  CreationStatements : String
  RevocationStatements : String
  RollbackStatements : String
  RenewStatements : String
deriving DecidableEq

/-- A stored statements sub-object: the five keys a decode may read
(`none` = key absent). -/
structure StmtsObj where
  creation_statments : Option String
  creation_statements : Option String
  revocation_statements : Option String
  rollback_statements : Option String
  renew_statements : Option String
deriving DecidableEq

/-- A stored role record, restricted to the keys the decoders read. -/
structure RoleRecord where
  statments : Option StmtsObj
  statements : Option StmtsObj
deriving DecidableEq

/-- backend.go lines 89–102: decode into the legacy-shaped view
(`upgradeCheck`/`upgradeStatements`): the sub-object under the
misspelled "statments" key, with the creation field at the misspelled
"creation_statments" key and the other three at the canonical keys. -/
def decodeUpgradeCheck (r : RoleRecord) : Statements :=
  match r.statments with
  | none => ⟨"", "", "", ""⟩
  | some o =>
    ⟨o.creation_statments.getD "", o.revocation_statements.getD "",
     o.rollback_statements.getD "", o.renew_statements.getD ""⟩

/-- Modelled from the spec: the canonical role entry (`roleEntry`,
declared outside the given sources) stores the statement set under the
canonical "statements" key with canonically spelled field names. -/
def decodeRoleEntry (r : RoleRecord) : Statements :=
  match r.statements with
  | none => ⟨"", "", "", ""⟩
  | some o =>
    ⟨o.creation_statements.getD "", o.revocation_statements.getD "",
     o.rollback_statements.getD "", o.renew_statements.getD ""⟩

/-- `Role` from backend.go lines 104–132 on a record that is present
and decodes: decode both views and, when the legacy view is not equal
to its zero value, overwrite all four canonical statement fields with
the legacy view's values. -/
def Role (r : RoleRecord) : Statements :=
  let upgradeCh := decodeUpgradeCheck r
  let result := decodeRoleEntry r
  if upgradeCh ≠ ⟨"", "", "", ""⟩ then upgradeCh else result

/-- A record carrying only the legacy misspelled keys. -/
def legacyOnlyRecord (cr rv rb rn : String) : RoleRecord :=
  ⟨some ⟨some cr, none, some rv, some rb, some rn⟩, none⟩

/-- The equivalent record written with the canonical keys. -/
def canonicalOnlyRecord (cr rv rb rn : String) : RoleRecord :=
  ⟨none, some ⟨none, some cr, some rv, some rb, some rn⟩⟩

end Database

/-- Modelled from the spec: the fixed supported-version table
(`tlsutil.TLSLookup`, declared outside the given sources) mapping the
enumerated TLS version identifiers to their protocol constants; the
spec's "enumerated version ordering" is the numeric order of these
constants. -/
def TLSLookup (s : Str) : Option Nat :=
  if s = "tls10".toList then some 769
  else if s = "tls11".toList then some 770
  else if s = "tls12".toList then some 771
  else none

namespace LDAP

/-!
## Directory configuration parsing — helper/ldap/config.go
-/

/-- The field values `fieldData.Get` yields for the schema keys read
by `NewConfiguration` (absent fields arrive as zero values). -/
structure FieldData where
  url : Str
  userattr : Str
  userdn : Str
  groupdn : Str
  groupfilter : Str
  groupattr : Str
  upndomain : Str
  certificate : Str
  insecure_tls : Bool
  tls_min_version : Str
  tls_max_version : Str
  starttls : Bool
  binddn : Str
  bindpass : Str
  deny_null_bind : Bool
  discoverdn : Bool

/-- `Configuration` from config.go lines 115–132 (field order as in
the source).  The Active-Directory client's configuration carries the
same fields and is modelled by this same structure. -/
structure Configuration where
  Url : Str
  UserDN : Str
  GroupDN : Str
  GroupFilter : Str
  GroupAttr : Str
  UPNDomain : Str
  UserAttr : Str
  Certificate : Str
  InsecureTLS : Bool
  StartTLS : Bool
  BindDN : Str
  BindPassword : Str
  DenyNullBind : Bool
  DiscoverDN : Bool
  TLSMinVersion : Str
  TLSMaxVersion : Str
deriving DecidableEq

/-- `NewConfiguration` from config.go lines 13–113.  `tmplOk`
abstracts `template.Parse` succeeding on the group filter; `pemOk`
abstracts the PEM-decode-plus-certificate-parse steps (their two
distinct error messages are collapsed into one).  The source's
assignments of non-empty fields onto an initially-empty struct
collapse to unconditional assignments (`strToLower [] = []`, and
assigning `false`/`[]` is the identity on the zero value); the checks
are kept in source order, so the result is unchanged. -/
def NewConfiguration (tmplOk pemOk : Str → Bool) (fd : FieldData) :
    Except Str Configuration :=
  if fd.groupfilter ≠ [] ∧ tmplOk fd.groupfilter = false then
    .error "invalid groupfilter".toList
  else if fd.certificate ≠ [] ∧ pemOk fd.certificate = false then
    .error "failed to decode PEM block in the certificate".toList
  else if fd.tls_min_version = [] then
    .error "failed to get tls_min_version value".toList
  else if (TLSLookup fd.tls_min_version).isNone then
    .error "invalid tls_min_version".toList
  else if fd.tls_max_version = [] then
    .error "failed to get tls_max_version value".toList
  else if (TLSLookup fd.tls_max_version).isNone then
    .error "invalid tls_max_version".toList
  else if strLt fd.tls_max_version fd.tls_min_version then
    .error "tls_max_version must be greater than or equal to tls_min_version".toList
  else
    .ok ⟨strToLower fd.url, fd.userdn, fd.groupdn, fd.groupfilter, fd.groupattr,
         fd.upndomain, strToLower fd.userattr, fd.certificate, fd.insecure_tls,
         fd.starttls, fd.binddn, fd.bindpass, fd.deny_null_bind, fd.discoverdn,
         fd.tls_min_version, fd.tls_max_version⟩

/-- Field data with valid ordered TLS versions and everything else at
its zero value — concrete input for the C8 witness. -/
def fdOK : FieldData :=
  ⟨[], [], [], [], [], [], [], [], false, "tls11".toList, "tls12".toList,
   false, [], [], false, false⟩

/-- Field data whose max version is ordered below its min version —
concrete input for the C8 witness. -/
def fdBad : FieldData :=
  ⟨[], [], [], [], [], [], [], [], false, "tls12".toList, "tls10".toList,
   false, [], [], false, false⟩

end LDAP

namespace AD

/-!
## Active-Directory client — helper/activedirectory/client.go

`C` is the transport-connection type (`*ldap.Conn`).  URL parsing,
host/port splitting, dialing, STARTTLS negotiation, the search and
the modify are oracles in `ADEnv`.  The client's configuration is the
`LDAP.Configuration` structure (the same field names are read).
-/

/-- Errors of the client: a single wrapped error, or the aggregated
multierror produced when every host fails. -/
inductive ADErr
  | single (s : Str)
  | multi (errs : List Str)
deriving DecidableEq

/-- A directory entry as consumed here (only its DN is read). -/
structure Entry where
  dn : Str
deriving DecidableEq

/-- client.go lines 35–39: base DN, subtree scope (2), filter. -/
structure SearchRequest where
  baseDN : Str
  scope : Nat
  filter : Str
deriving DecidableEq

/-- A modify request: target DN and the replace-attribute list, each
attribute carrying its byte-string values. -/
structure ModifyRequest where
  dn : Str
  replaceAttrs : List (Str × List (List Nat))
deriving DecidableEq

/-- The parts of `url.Parse` consumed by `connect`. -/
structure URLParts where
  scheme : Str
  host : Str
deriving DecidableEq

/-- The TLS client configuration assembled by `getTLSConfig`. -/
structure TLSConfig where
  serverName : Str
  minVersion : Option Nat
  maxVersion : Option Nat
  insecureSkipVerify : Bool
  hasRootCAs : Bool
deriving DecidableEq

/-- Oracles for the client: `url.Parse` (scheme and host of the
result), `net.SplitHostPort` (`none` = error), plaintext dial, TLS
dial, the STARTTLS upgrade, certificate-pool append success, and the
connection's search and modify calls. -/
structure ADEnv (C : Type) where
  parseURL : Str → Except Str URLParts
  splitHostPort : Str → Option (Str × Str)
  dial : Str → Except Str C
  dialTLS : Str → TLSConfig → Except Str C
  startTLS : C → TLSConfig → Except Str Unit
  pemAppendOk : Str → Bool
  searchConn : C → SearchRequest → Except Str (List Entry)
  modifyConn : C → ModifyRequest → Except Str Unit

/-- `net.JoinHostPort`. -/
def joinHostPort (host port : Str) : Str :=
  if host.contains ':' then '[' :: host ++ (']' :: ':' :: port)
  else host ++ (':' :: port)

/-- client.go lines 207–213: look up the configured minimum version. -/
def setMinV (conf : LDAP.Configuration) (c : TLSConfig) : Except Str TLSConfig :=
  if conf.TLSMinVersion = [] then .ok c
  else
    match TLSLookup conf.TLSMinVersion with
    | none => .error "invalid tls_min_version in config".toList
    | some v => .ok { c with minVersion := some v }

/-- client.go lines 215–221: look up the configured maximum version. -/
def setMaxV (conf : LDAP.Configuration) (c : TLSConfig) : Except Str TLSConfig :=
  if conf.TLSMaxVersion = [] then .ok c
  else
    match TLSLookup conf.TLSMaxVersion with
    | none => .error "invalid tls_max_version in config".toList
    | some v => .ok { c with maxVersion := some v }

/-- client.go lines 227–234: append the configured trust root. -/
def setCert (pemOk : Str → Bool) (conf : LDAP.Configuration) (c : TLSConfig) :
    Except Str TLSConfig :=
  if conf.Certificate = [] then .ok c
  else if pemOk conf.Certificate then .ok { c with hasRootCAs := true }
  else .error "could not append CA certificate".toList

/-- `getTLSConfig` from client.go lines 201–236: server name is the
connecting host; versions, skip-verify and trust root applied in
source order. -/
def getTLSConfig (pemOk : Str → Bool) (conf : LDAP.Configuration) (host : Str) :
    Except Str TLSConfig := do
  let c1 ← setMinV conf ⟨host, none, none, false, false⟩
  let c2 ← setMaxV conf c1
  let c3 := if conf.InsecureTLS then { c2 with insecureSkipVerify := true } else c2
  setCert pemOk conf c3

/-- `connect` from client.go lines 138–199: parse the URL, split
host and port (falling back to the raw parsed host on a split error),
then dial by scheme — `ldap` in plaintext on default port 389 with an
optional STARTTLS upgrade, `ldaps` with implicit TLS on default port
636, anything else is an error. -/
def connect (env : ADEnv C) (conf : LDAP.Configuration) (uut : Str) : Except Str C :=
  match env.parseURL uut with
  | .error e => .error e
  | .ok pu =>
    let hp := match env.splitHostPort pu.host with
      | some x => x
      | none => (pu.host, [])
    let host := hp.1
    let port := hp.2
    if pu.scheme = "ldap".toList then
      let port := if port = [] then "389".toList else port
      match env.dial (joinHostPort host port) with
      | .error e => .error e
      | .ok conn =>
        if conf.StartTLS then
          match getTLSConfig env.pemAppendOk conf host with
          | .error e => .error e
          | .ok tc =>
            match env.startTLS conn tc with
            | .error e => .error e
            | .ok _ => .ok conn
        else .ok conn
    else if pu.scheme = "ldaps".toList then
      let port := if port = [] then "636".toList else port
      match getTLSConfig env.pemAppendOk conf host with
      | .error e => .error e
      | .ok tc => env.dialTLS (joinHostPort host port) tc
    else .error ("invalid LDAP scheme in url ".toList ++ joinHostPort host port)

/-- The wrapping `fmt.Errorf("error parsing url %q: %s", uut, err)`
applied to each failed host in client.go line 128. -/
def wrapUrlErr (u e : Str) : Str :=
  "error parsing url ".toList ++ ('"' :: u) ++ ('"' :: ':' :: ' ' :: e)

/-- The error payload of a failed `connect` (`[]` on success; only
consulted under a failure hypothesis). -/
def errOf : Except Str C → Str
  | .error e => e
  | .ok _ => []

/-- The failover loop of `getConnection` (client.go lines 122–135):
try each URL in order, accumulating one wrapped error per failure. -/
def tryUrls (env : ADEnv C) (conf : LDAP.Configuration) :
    List Str → List Str → Except (List Str) C
  | [], errs => .error errs
  | u :: rest, errs =>
    match connect env conf u with
    | .error e => tryUrls env conf rest (errs ++ [wrapUrlErr u e])
    | .ok conn => .ok conn

/-- `getConnection` from client.go lines 120–136: split the configured
URL list on commas and run the failover loop; an error aggregates each
host's individual failure. -/
def getConnection (env : ADEnv C) (conf : LDAP.Configuration) : Except (List Str) C :=
  tryUrls env conf (splitOnSep ',' conf.Url) []

/-- `Search` from client.go lines 33–53: open a connection, issue a
subtree-scope (2) search, return the matched entries. -/
def Search (env : ADEnv C) (conf : LDAP.Configuration) (baseDN filter : Str) :
    Except ADErr (List Entry) :=
  match getConnection env conf with
  | .error errs => .error (.multi errs)
  | .ok conn =>
    match env.searchConn conn ⟨baseDN, 2, filter⟩ with
    | .error s => .error (.single s)
    | .ok entries => .ok entries

/-- The UTF-16 code units of one character (surrogate pair above the
basic plane), as produced by the Go encoder. -/
def utf16Units (c : Char) : List Nat :=
  let n := c.toNat
  if n < 65536 then [n]
  else [55296 + (n - 65536) / 1024, 56320 + (n - 65536) % 1024]

/-- UTF-16 little-endian encoding of a string as a byte sequence
(`unicode.UTF16(LittleEndian, IgnoreBOM).NewEncoder()`; it cannot fail
on the valid strings modelled here). -/
def utf16le (s : Str) : List Nat :=
  (s.flatMap utf16Units).flatMap fun u => [u % 256, u / 256]

/-- The fixed password attribute replaced by `UpdatePassword`. -/
def passwordAttr : Str := "unicodePwd".toList

/-- client.go line 73: the password is enclosed in double quotes
before encoding. -/
def quoteWrap (pw : Str) : Str := '"' :: pw ++ ['"']

/-- `UpdatePassword` from client.go lines 55–92: search, require
exactly one entry, build the replace-attribute request carrying the
UTF-16LE quote-wrapped password against the entry's DN, and issue it.
Returns the call result and the modify requests issued. -/
def UpdatePassword (env : ADEnv C) (conf : LDAP.Configuration)
    (baseDN filter newPassword : Str) : Except ADErr Unit × List ModifyRequest :=
  match Search env conf baseDN filter with
  | .error e => (.error e, [])
  | .ok entries =>
    match entries with
    | [entry] =>
      let pwdEncoded := utf16le (quoteWrap newPassword)
      let passReq : ModifyRequest := ⟨entry.dn, [(passwordAttr, [pwdEncoded])]⟩
      match getConnection env conf with
      | .error errs => (.error (.multi errs), [])
      | .ok conn =>
        match env.modifyConn conn passReq with
        | .error s => (.error (.single s), [passReq])
        | .ok _ => (.ok (), [passReq])
    | _ =>
      (.error (.single ("password filter of ".toList ++ filter
        ++ " doesn't match just one entry".toList)), [])

/-- A single-host ldap configuration — concrete input for the C4
witness. -/
def adTestConf : LDAP.Configuration :=
  ⟨"ldap://h".toList, [], [], [], [], [], [], [], false, false, [], [],
   false, false, "tls12".toList, "tls12".toList⟩

/-- An environment whose search matches two entries — concrete input
for the C4 witness. -/
def adEnvTwo : ADEnv Nat :=
  ⟨fun _ => .ok ⟨"ldap".toList, "h".toList⟩, fun _ => none, fun _ => .ok 5,
   fun _ _ => .ok 6, fun _ _ => .ok (), fun _ => true,
   fun _ _ => .ok [⟨"cn=a".toList⟩, ⟨"cn=b".toList⟩], fun _ _ => .ok ()⟩

/-- An environment whose search matches exactly one entry — concrete
input for the C4 witness. -/
def adEnvOne : ADEnv Nat :=
  ⟨fun _ => .ok ⟨"ldap".toList, "h".toList⟩, fun _ => none, fun _ => .ok 5,
   fun _ _ => .ok 6, fun _ _ => .ok (), fun _ => true,
   fun _ _ => .ok [⟨"cn=a".toList⟩], fun _ _ => .ok ()⟩

/-- A two-host configuration whose first host has an unsupported
scheme — concrete input for the C9 witness. -/
def adConfFailover : LDAP.Configuration :=
  ⟨"bad://x,ldap://h".toList, [], [], [], [], [], [], [], false, false, [], [],
   false, false, "tls12".toList, "tls12".toList⟩

/-- A configuration listing only the unsupported-scheme host —
concrete input for the C9 witness. -/
def adConfBad : LDAP.Configuration :=
  ⟨"bad://x".toList, [], [], [], [], [], [], [], false, false, [], [],
   false, false, "tls12".toList, "tls12".toList⟩

/-- An environment that parses the two test URLs and dials
successfully — concrete input for the C9 witness. -/
def adEnvFailover : ADEnv Nat :=
  ⟨fun s => if s = "bad://x".toList then .ok ⟨"bad".toList, "x".toList⟩
            else .ok ⟨"ldap".toList, "h".toList⟩,
   fun _ => none, fun _ => .ok 5, fun _ _ => .ok 6, fun _ _ => .ok (),
   fun _ => true, fun _ _ => .ok [], fun _ _ => .ok ()⟩

end AD

namespace Database

/-- **C1.** On a cache miss, when the constructed instance's
`Initialize` fails, the instance is closed, the error is returned and
the cache map is left exactly unchanged; when `Initialize` succeeds the
instance is stored under the name and returned. -/
theorem getConnection_failed_init_not_cached
    {E Cfg α : Type} (env : GetEnv E Cfg α) (st : DBState α) (name : String)
    (hmiss : st.connections name = none)
    (cfg : Cfg) (hcfg : env.dbConfig = .ok cfg)
    (db : α) (hdb : env.factory cfg = .ok db) :
    (∀ e, env.initDB db = .error e →
      GetConnection env st name = (.error e, st, [db]))
    ∧ (env.initDB db = .ok () →
      GetConnection env st name =
        (.ok db, ⟨fun k => if k = name then some db else st.connections k⟩, [])) := by
  constructor
  · intro e he
    simp [GetConnection, hmiss, hcfg, hdb, he]
  · intro hok
    simp [GetConnection, hmiss, hcfg, hdb, hok]

/-- Witness for C1 at concrete inputs: an empty cache, a config that
loads, a factory that yields instance `7`, exercised both with a
failing and with a succeeding `Initialize`. -/
theorem getConnection_failed_init_not_cached_witness :
    (@GetConnection String Nat Nat
        ⟨.ok 0, fun _ => .ok 7, fun _ => .error "boom"⟩ ⟨fun _ => none⟩ "pg"
      = (.error "boom", ⟨fun _ => none⟩, [7]))
    ∧ (@GetConnection String Nat Nat
        ⟨.ok 0, fun _ => .ok 7, fun _ => .ok ()⟩ ⟨fun _ => none⟩ "pg"
      = (.ok 7, ⟨fun k => if k = "pg" then some 7 else none⟩, [])) := by
  constructor
  · exact (getConnection_failed_init_not_cached
      ⟨.ok 0, fun _ => .ok 7, fun _ => .error "boom"⟩ ⟨fun _ => none⟩ "pg"
      rfl 0 rfl 7 rfl).1 "boom" rfl
  · exact (getConnection_failed_init_not_cached
      ⟨.ok 0, fun _ => .ok 7, fun _ => .ok ()⟩ ⟨fun _ => none⟩ "pg"
      rfl 0 rfl 7 rfl).2 rfl

/-- **C3.** For a name present in the cache, `ClearConnection` removes
the entry exactly when `Close()` returns no error; a failing close
returns that error and leaves the map unchanged.  For an absent name it
returns no error and leaves the map unchanged. -/
theorem clearConnection_removes_iff_close_ok
    {E α : Type} (close : α → Except E Unit) (st : DBState α) (name : String) :
    (∀ db, st.connections name = some db →
      (∀ e, close db = .error e → ClearConnection close st name = (.error e, st))
      ∧ (close db = .ok () →
        ClearConnection close st name =
          (.ok (), ⟨fun k => if k = name then none else st.connections k⟩)))
    ∧ (st.connections name = none → ClearConnection close st name = (.ok (), st)) := by
  constructor
  · intro db hdb
    constructor
    · intro e he; simp [ClearConnection, hdb, he]
    · intro hok; simp [ClearConnection, hdb, hok]
  · intro hnone; simp [ClearConnection, hnone]

/-- Witness for C3 at concrete inputs: a one-entry cache cleared with a
failing close (entry stays), with a succeeding close (entry removed),
and a clear of an absent name. -/
theorem clearConnection_removes_iff_close_ok_witness :
    (@ClearConnection Nat String (fun _ => .error "busy")
        ⟨fun k => if k = "pg" then some 7 else none⟩ "pg"
      = (.error "busy", ⟨fun k => if k = "pg" then some 7 else none⟩))
    ∧ (@ClearConnection Nat String (fun _ => .ok ())
        ⟨fun k => if k = "pg" then some 7 else none⟩ "pg"
      = (.ok (), ⟨fun k => if k = "pg" then none
          else (fun k => if k = "pg" then some 7 else none) k⟩))
    ∧ (@ClearConnection Nat String (fun _ => .error "busy")
        ⟨fun k => if k = "pg" then some 7 else none⟩ "mysql"
      = (.ok (), ⟨fun k => if k = "pg" then some 7 else none⟩)) := by
  refine ⟨?_, ?_, ?_⟩
  · exact ((clearConnection_removes_iff_close_ok (fun _ : Nat => .error "busy")
      ⟨fun k => if k = "pg" then some 7 else none⟩ "pg").1 7 rfl).1 "busy" rfl
  · exact ((clearConnection_removes_iff_close_ok (fun _ : Nat => .ok ())
      ⟨fun k => if k = "pg" then some 7 else none⟩ "pg").1 7 rfl).2 rfl
  · exact (clearConnection_removes_iff_close_ok (fun _ : Nat => .error "busy")
      ⟨fun k => if k = "pg" then some 7 else none⟩ "mysql").2 rfl

end Database

namespace ConnUtil

/-- The rebuild path never changes the `Initialized` flag. -/
theorem rebuild_keeps_flag (env : ConnEnv H) (c : SQLConnectionProducer H) (cl : List H) :
    (rebuild env c cl).prod.Initialized = c.Initialized := by
  unfold rebuild
  cases ho : env.openDB (driverName c.DType) (connTimezone c.ConnectionURL) <;> simp [ho]

/-- `Connection` never changes the `Initialized` flag. -/
theorem connection_keeps_flag (env : ConnEnv H) (c : SQLConnectionProducer H) :
    (Connection env c).prod.Initialized = c.Initialized := by
  unfold Connection
  cases hI : c.Initialized <;> simp [hI]
  cases hdb : c.db
  · simp [rebuild_keeps_flag, hI]
  · rename_i h
    cases hp : env.ping h <;> simp [hp, rebuild_keeps_flag, hI]

/-- The rebuild path never produces the not-initialized sentinel. -/
theorem rebuild_res_ne_notInit (env : ConnEnv H) (c : SQLConnectionProducer H) (cl : List H) :
    (rebuild env c cl).res ≠ .error .NotInit := by
  unfold rebuild
  cases ho : env.openDB (driverName c.DType) (connTimezone c.ConnectionURL) <;> simp [ho]

/-- A producer marked initialized never gets the not-initialized
sentinel out of `Connection`. -/
theorem connection_res_ne_notInit (env : ConnEnv H) (c : SQLConnectionProducer H)
    (hI : c.Initialized = true) :
    (Connection env c).res ≠ .error .NotInit := by
  unfold Connection
  rw [hI, if_neg (by decide : ¬ (true = false))]
  cases hdb : c.db
  · exact rebuild_res_ne_notInit env c []
  · rename_i h
    cases hp : env.ping h <;> simp [hp]
    exact rebuild_res_ne_notInit env c [h]

/-- The verification block hands back the producer that `Connection`
left behind. -/
theorem verifyStep_prod (env : ConnEnv H) (c : SQLConnectionProducer H) :
    (verifyStep env c).2 = (Connection env c).prod := by
  unfold verifyStep
  cases hr : (Connection env c).res
  · simp [hr]
  · cases hdb : (Connection env c).prod.db
    · simp [hr, hdb]
    · rename_i h
      cases hp : env.ping h <;> simp [hr, hdb, hp]

/-- `applyDefaults` does not touch the `Initialized` flag. -/
theorem applyDefaults_flag (c : SQLConnectionProducer H) :
    (applyDefaults c).Initialized = c.Initialized := by
  simp [applyDefaults]

/-- After the URL and templating checks, the producer ends marked
initialized exactly when the lifetime parses (and keeps its old flag
on a parse failure). -/
theorem initAfterChecks_flag (env : ConnEnv H) (parseDur : Str → Except Str Int)
    (c : SQLConnectionProducer H) (vf : Bool) :
    (initAfterChecks env parseDur c vf).2.Initialized =
      (if isOkB (parseDur ((applyDefaults c).MaxConnectionLifetimeRaw.getD "0s".toList))
        then true else c.Initialized) := by
  simp only [initAfterChecks]
  cases hp : parseDur ((applyDefaults c).MaxConnectionLifetimeRaw.getD "0s".toList)
  · simp [isOkB, applyDefaults_flag]
  · cases vf <;> simp [isOkB, verifyStep_prod, connection_keeps_flag]

/-- Restatement of `initAfterChecks_flag` for an unmarked producer. -/
theorem initAfterChecks_marks (env : ConnEnv H) (parseDur : Str → Except Str Int)
    (c : SQLConnectionProducer H) (vf : Bool) (h0 : c.Initialized = false) :
    ((initAfterChecks env parseDur c vf).2.Initialized = true ↔
      ∃ d, parseDur ((applyDefaults c).MaxConnectionLifetimeRaw.getD "0s".toList) = .ok d) := by
  rw [initAfterChecks_flag]
  cases hpd : parseDur ((applyDefaults c).MaxConnectionLifetimeRaw.getD "0s".toList) <;>
    simp [isOkB, hpd, h0]

/-- **C2 — counterexample.** Calling `Initialize` with verification on
a fresh producer whose driver cannot open a connection returns an
error, yet leaves the producer marked initialized, and a subsequent
`Connection()` does not return the not-initialized sentinel — refuting
"the producer is marked initialized only when Initialize returns
without error, including the case where the verification fails". -/
theorem sql_verify_failure_marks_initialized_counterexample :
    (Initialize pingFailEnv (fun _ => .ok 0) freshProducer true).1 =
      .error (.VerifyWrap (.OpenFail "dial error".toList))
    ∧ freshProducer.Initialized = false
    ∧ (Initialize pingFailEnv (fun _ => .ok 0) freshProducer true).2.Initialized = true
    ∧ (Connection pingFailEnv
        (Initialize pingFailEnv (fun _ => .ok 0) freshProducer true).2).res
        ≠ .error .NotInit := by
  refine ⟨by decide, rfl, by decide, by decide⟩

/-- **C2 — amended.** `Connection()` returns the not-initialized error
exactly when the producer is not marked initialized; and `Initialize`
marks an unmarked producer initialized exactly when configuration
validation passes (non-empty URL, credential templating, parsable
lifetime) — the mark is set before connection verification, so an
`Initialize` that fails only during verification still leaves the
producer marked initialized. -/
theorem sql_not_initialized_iff_unmarked (env : ConnEnv H)
    (parseDur : Str → Except Str Int) (c : SQLConnectionProducer H) (vf : Bool) :
    ((Connection env c).res = .error .NotInit ↔ c.Initialized = false)
    ∧ (c.Initialized = false →
        ((Initialize env parseDur c vf).2.Initialized = true ↔
          (c.ConnectionURL ≠ []
           ∧ (c.Username ≠ [] ∧ c.Password ≠ [] → templatedOK c = true)
           ∧ ∃ d, parseDur ((applyDefaults c).MaxConnectionLifetimeRaw.getD "0s".toList)
              = .ok d))) := by
  constructor
  · constructor
    · intro h
      cases hI : c.Initialized
      · rfl
      · exact absurd h (connection_res_ne_notInit env c hI)
    · intro h
      simp [Connection, h]
  · intro h0
    by_cases hu : c.ConnectionURL = []
    · simp [Initialize, hu, h0]
    · by_cases hup : c.Username ≠ [] ∧ c.Password ≠ []
      · by_cases ht : templatedOK c = true
        · rw [show Initialize env parseDur c vf = initAfterChecks env parseDur c vf from by
            simp [Initialize, hu, hup, ht]]
          rw [initAfterChecks_marks env parseDur c vf h0]
          constructor
          · intro hd
            exact ⟨hu, fun _ => ht, hd⟩
          · rintro ⟨-, -, hd⟩
            exact hd
        · rw [show Initialize env parseDur c vf = (.error .NotTemplated, c) from by
            simp [Initialize, hu, hup, ht]]
          constructor
          · intro hx
            exact absurd (h0.symm.trans hx) (by decide)
          · rintro ⟨-, h2, -⟩
            exact absurd (h2 hup) ht
      · rw [show Initialize env parseDur c vf = initAfterChecks env parseDur c vf from by
          simp [Initialize, hu, hup]]
        rw [initAfterChecks_marks env parseDur c vf h0]
        constructor
        · intro hd
          exact ⟨hu, fun hx => absurd hx hup, hd⟩
        · rintro ⟨-, -, hd⟩
          exact hd

/-- Witness for the amended C2 at concrete inputs: the fresh producer
gets the not-initialized error before any `Initialize`, and after an
`Initialize` whose verification fails it is marked initialized. -/
theorem sql_not_initialized_iff_unmarked_witness :
    (Connection pingFailEnv freshProducer).res = .error .NotInit
    ∧ (Initialize pingFailEnv (fun _ => .ok 0) freshProducer true).2.Initialized = true := by
  constructor
  · exact (sql_not_initialized_iff_unmarked pingFailEnv (fun _ => .ok 0)
      freshProducer true).1.mpr rfl
  · exact ((sql_not_initialized_iff_unmarked pingFailEnv (fun _ => .ok 0)
      freshProducer true).2 rfl).mpr ⟨by decide, by decide, 0, rfl⟩

/-- The rebuild path only replaces the stored handle. -/
theorem rebuild_prod_eq (env : ConnEnv H) (c : SQLConnectionProducer H) (cl : List H) :
    ∃ o, (rebuild env c cl).prod = { c with db := o } := by
  unfold rebuild
  cases ho : env.openDB (driverName c.DType) (connTimezone c.ConnectionURL)
  · exact ⟨none, by simp [ho]⟩
  · rename_i h
    exact ⟨some h, by simp [ho]⟩

/-- `Connection` only replaces the stored handle of the producer. -/
theorem connection_prod_eq (env : ConnEnv H) (c : SQLConnectionProducer H) :
    ∃ o, (Connection env c).prod = { c with db := o } := by
  unfold Connection
  by_cases hI : c.Initialized = false
  · rw [if_pos hI]
    exact ⟨c.db, rfl⟩
  · rw [if_neg hI]
    cases hdb : c.db
    · exact rebuild_prod_eq env c []
    · rename_i h
      show ∃ o,
        (if env.ping h = true then (⟨.ok h, c, [], [], []⟩ : ConnResult H)
          else rebuild env c [h]).prod = { c with db := o }
      cases hp : env.ping h
      · have hcond : ¬ (false = true) := by decide
        rw [if_neg hcond]
        exact rebuild_prod_eq env c [h]
      · rw [if_pos rfl]
        exact ⟨c.db, rfl⟩

/-- `Connection` never changes the configured max-open bound. -/
theorem connection_keeps_maxOpen (env : ConnEnv H) (c : SQLConnectionProducer H) :
    (Connection env c).prod.MaxOpenConnections = c.MaxOpenConnections := by
  obtain ⟨o, ho⟩ := connection_prod_eq env c
  rw [ho]

/-- `Connection` never changes the configured max-idle bound. -/
theorem connection_keeps_maxIdle (env : ConnEnv H) (c : SQLConnectionProducer H) :
    (Connection env c).prod.MaxIdleConnections = c.MaxIdleConnections := by
  obtain ⟨o, ho⟩ := connection_prod_eq env c
  rw [ho]

/-- The pool bounds `applyDefaults` computes, in closed form. -/
theorem applyDefaults_pool (c : SQLConnectionProducer H) :
    (applyDefaults c).MaxOpenConnections =
      (if c.MaxOpenConnections = 0 then 2 else c.MaxOpenConnections)
    ∧ (applyDefaults c).MaxIdleConnections =
      (let mo := if c.MaxOpenConnections = 0 then 2 else c.MaxOpenConnections
       let mi := if c.MaxIdleConnections = 0 then mo else c.MaxIdleConnections
       if mi > mo then mo else mi) := by
  constructor <;> simp [applyDefaults]

/-- When the tail of `Initialize` succeeds, the resulting producer
carries the defaulted pool bounds. -/
theorem initAfterChecks_pool (env : ConnEnv H) (parseDur : Str → Except Str Int)
    (c : SQLConnectionProducer H) (vf : Bool)
    (hok : (initAfterChecks env parseDur c vf).1 = .ok ()) :
    (initAfterChecks env parseDur c vf).2.MaxOpenConnections =
      (applyDefaults c).MaxOpenConnections
    ∧ (initAfterChecks env parseDur c vf).2.MaxIdleConnections =
      (applyDefaults c).MaxIdleConnections := by
  simp only [initAfterChecks] at hok ⊢
  cases hp : parseDur ((applyDefaults c).MaxConnectionLifetimeRaw.getD "0s".toList)
  · rw [hp] at hok
    simp at hok
  · cases vf
    · simp
    · simp only [if_true]
      constructor
      · rw [verifyStep_prod, connection_keeps_maxOpen]
      · rw [verifyStep_prod, connection_keeps_maxIdle]

/-- **C6.** For every configuration accepted by `Initialize` (with or
without verification): an unset max-open becomes 2, an unset max-idle
becomes the (possibly defaulted) max-open, and a max-idle above
max-open is clamped down to max-open. -/
theorem sql_init_pool_defaults (env : ConnEnv H) (parseDur : Str → Except Str Int)
    (c : SQLConnectionProducer H) (vf : Bool)
    (hok : (Initialize env parseDur c vf).1 = .ok ()) :
    (Initialize env parseDur c vf).2.MaxOpenConnections =
        (if c.MaxOpenConnections = 0 then 2 else c.MaxOpenConnections)
    ∧ (Initialize env parseDur c vf).2.MaxIdleConnections =
        (let mo := if c.MaxOpenConnections = 0 then 2 else c.MaxOpenConnections
         let mi := if c.MaxIdleConnections = 0 then mo else c.MaxIdleConnections
         if mi > mo then mo else mi) := by
  by_cases hu : c.ConnectionURL = []
  · rw [show Initialize env parseDur c vf = (.error .EmptyURL, c) from by
      simp [Initialize, hu]] at hok
    simp at hok
  · by_cases hup : c.Username ≠ [] ∧ c.Password ≠ []
    · by_cases ht : templatedOK c = true
      · rw [show Initialize env parseDur c vf = initAfterChecks env parseDur c vf from by
          simp [Initialize, hu, hup, ht]] at hok ⊢
        have h1 := initAfterChecks_pool env parseDur c vf hok
        have h2 := applyDefaults_pool c
        exact ⟨h1.1.trans h2.1, h1.2.trans h2.2⟩
      · rw [show Initialize env parseDur c vf = (.error .NotTemplated, c) from by
          simp [Initialize, hu, hup, ht]] at hok
        simp at hok
    · rw [show Initialize env parseDur c vf = initAfterChecks env parseDur c vf from by
        simp [Initialize, hu, hup]] at hok ⊢
      have h1 := initAfterChecks_pool env parseDur c vf hok
      have h2 := applyDefaults_pool c
      exact ⟨h1.1.trans h2.1, h1.2.trans h2.2⟩

/-- Witness for C6 at concrete inputs: max-open 5 with max-idle 0
yields effective idle 5, and with max-idle 10 also yields idle 5. -/
theorem sql_init_pool_defaults_witness :
    ((Initialize pingFailEnv (fun _ => .ok 0) idle0Producer false).1 = .ok ()
      ∧ (Initialize pingFailEnv (fun _ => .ok 0) idle0Producer false).2.MaxIdleConnections = 5)
    ∧ ((Initialize pingFailEnv (fun _ => .ok 0) idle10Producer false).1 = .ok ()
      ∧ (Initialize pingFailEnv (fun _ => .ok 0) idle10Producer false).2.MaxIdleConnections = 5) := by
  constructor
  · have h := sql_init_pool_defaults pingFailEnv (fun _ => .ok 0) idle0Producer false rfl
    exact ⟨rfl, h.2.trans (by decide)⟩
  · have h := sql_init_pool_defaults pingFailEnv (fun _ => .ok 0) idle10Producer false rfl
    exact ⟨rfl, h.2.trans (by decide)⟩

/-- **C7.** For an initialized producer: a live handle whose ping
succeeds is returned unchanged; a failed ping closes the old handle
and rebuilds, opening the driver with the mssql→sqlserver alias
mapping and the postgres UTC-timezone adjustment applied, and the
configured pool bounds are applied to the fresh handle. -/
theorem sql_connection_reuse_and_rebuild (env : ConnEnv H)
    (c : SQLConnectionProducer H) (hinit : c.Initialized = true) :
    (∀ h, c.db = some h → env.ping h = true →
      Connection env c = ⟨.ok h, c, [], [], []⟩)
    ∧ (∀ h, c.db = some h → env.ping h = false →
      (Connection env c).closed = [h]
      ∧ (Connection env c).opened = [(driverName c.DType, connTimezone c.ConnectionURL)]
      ∧ ∀ h2, env.openDB (driverName c.DType) (connTimezone c.ConnectionURL) = .ok h2 →
          (Connection env c).res = .ok h2
          ∧ (Connection env c).prod.db = some h2
          ∧ (Connection env c).poolSet =
              [(h2, c.MaxOpenConnections, c.MaxIdleConnections, c.maxConnectionLifetime)])
    ∧ driverName "mssql".toList = "sqlserver".toList
    ∧ ∀ s : Str,
        (strStartsWith s "postgres://".toList = true
          ∨ strStartsWith s "postgresql://".toList = true) →
        connTimezone s =
          (if s.contains '?' then s ++ "&timezone=utc".toList
            else s ++ "?timezone=utc".toList) := by
  refine ⟨?_, ?_, by decide, ?_⟩
  · intro h hdb hp
    simp [Connection, hinit, hdb, hp]
  · intro h hdb hp
    have hc : Connection env c = rebuild env c [h] := by
      simp [Connection, hinit, hdb, hp]
    rw [hc]
    refine ⟨?_, ?_, ?_⟩
    · unfold rebuild
      cases ho : env.openDB (driverName c.DType) (connTimezone c.ConnectionURL) <;> simp [ho]
    · unfold rebuild
      cases ho : env.openDB (driverName c.DType) (connTimezone c.ConnectionURL) <;> simp [ho]
    · intro h2 ho
      refine ⟨?_, ?_, ?_⟩ <;> simp [rebuild, ho]
  · intro s hs
    unfold connTimezone
    rcases hs with hs | hs <;> rw [hs] <;> simp

/-- Witness for C7 at concrete inputs: the live producer with cached
handle 1 — a succeeding ping returns the same handle with no side
effects; a failing ping closes handle 1 and yields the freshly opened
handle 42 carrying pool bounds (5, 5, 0). -/
theorem sql_connection_reuse_and_rebuild_witness :
    (Connection ⟨fun _ => true, fun _ _ => .ok 42⟩ liveProducer
      = ⟨.ok 1, liveProducer, [], [], []⟩)
    ∧ ((Connection ⟨fun _ => false, fun _ _ => .ok 42⟩ liveProducer).closed = [1]
      ∧ (Connection ⟨fun _ => false, fun _ _ => .ok 42⟩ liveProducer).res = .ok 42
      ∧ (Connection ⟨fun _ => false, fun _ _ => .ok 42⟩ liveProducer).poolSet
          = [(42, 5, 5, 0)]) := by
  constructor
  · exact (sql_connection_reuse_and_rebuild ⟨fun _ => true, fun _ _ => .ok 42⟩
      liveProducer rfl).1 1 rfl rfl
  · have h := (sql_connection_reuse_and_rebuild ⟨fun _ => false, fun _ _ => .ok 42⟩
      liveProducer rfl).2.1 1 rfl rfl
    have h2 := h.2.2 42 rfl
    exact ⟨h.1, h2.1, h2.2.2⟩

/-- **C10.** `Close()` always returns nil — close errors on the
underlying handle are discarded — and afterwards the stored handle is
nil; consequently clearing a cache entry backed by a SQL producer
never fails on the close step and always leaves no entry under the
name. -/
theorem sql_close_never_fails {H : Type} (c : SQLConnectionProducer H) :
    (Close c).1 = .ok ()
    ∧ (Close c).2.1.db = none
    ∧ ∀ (st : Database.DBState (SQLConnectionProducer H)) (name : String),
        (Database.ClearConnection (fun p => (Close p).1) st name).1 = .ok ()
        ∧ (Database.ClearConnection (fun p => (Close p).1) st name).2.connections name
            = none := by
  refine ⟨rfl, rfl, ?_⟩
  intro st name
  cases h : st.connections name <;> simp [Database.ClearConnection, h, Close]

end ConnUtil

namespace Database

/-- Decoding a legacy-only record yields the legacy values through the
override when they are non-zero, and the zero canonical view otherwise
— in both cases the four statement values themselves. -/
theorem role_legacyOnly_eq (cr rv rb rn : String) :
    Role (legacyOnlyRecord cr rv rb rn) =
      (if (⟨cr, rv, rb, rn⟩ : Statements) ≠ ⟨"", "", "", ""⟩
        then (⟨cr, rv, rb, rn⟩ : Statements) else ⟨"", "", "", ""⟩) := by
  simp only [Role, legacyOnlyRecord, decodeUpgradeCheck, decodeRoleEntry, Option.getD]

/-- Decoding a canonical-only record yields the canonical values: the
legacy view is zero, so no override fires. -/
theorem role_canonicalOnly_eq (cr rv rb rn : String) :
    Role (canonicalOnlyRecord cr rv rb rn) = ⟨cr, rv, rb, rn⟩ := by
  simp [Role, canonicalOnlyRecord, decodeUpgradeCheck, decodeRoleEntry]

/-- **C5.** Decoding a stored role record produces the canonical role
entry except that a non-zero legacy view overrides all four statement
fields; a record with only the legacy misspelled keys decodes to the
same statement fields as the equivalent canonical record, and a
canonical record (no legacy key) gets no override. -/
theorem role_decode_legacy_override (r : RoleRecord) :
    (decodeUpgradeCheck r ≠ ⟨"", "", "", ""⟩ → Role r = decodeUpgradeCheck r)
    ∧ (r.statments = none → Role r = decodeRoleEntry r)
    ∧ ∀ cr rv rb rn : String,
        Role (legacyOnlyRecord cr rv rb rn) = Role (canonicalOnlyRecord cr rv rb rn) := by
  refine ⟨?_, ?_, ?_⟩
  · intro h
    simp [Role, h]
  · intro h
    have hz : decodeUpgradeCheck r = ⟨"", "", "", ""⟩ := by
      simp [decodeUpgradeCheck, h]
    simp [Role, hz]
  · intro cr rv rb rn
    rw [role_legacyOnly_eq, role_canonicalOnly_eq]
    by_cases h : (⟨cr, rv, rb, rn⟩ : Statements) = ⟨"", "", "", ""⟩
    · rw [if_neg (not_not_intro h)]
      exact h.symm
    · rw [if_pos h]

/-- Witness for C5 at concrete records: the legacy creation value
overrides a canonical one stored alongside it, and a legacy-only
record decodes identically to its canonical rewrite. -/
theorem role_decode_legacy_override_witness :
    (Role ⟨some ⟨some "CREATE", none, none, none, none⟩,
           some ⟨none, some "OLD", some "R", some "B", some "N"⟩⟩
      = ⟨"CREATE", "", "", ""⟩)
    ∧ Role (legacyOnlyRecord "c" "r" "b" "n")
      = Role (canonicalOnlyRecord "c" "r" "b" "n") := by
  constructor
  · have h := (role_decode_legacy_override
      ⟨some ⟨some "CREATE", none, none, none, none⟩,
       some ⟨none, some "OLD", some "R", some "B", some "N"⟩⟩).1 (by decide)
    exact h.trans (by decide)
  · exact (role_decode_legacy_override
      (legacyOnlyRecord "c" "r" "b" "n")).2.2 "c" "r" "b" "n"

end Database

namespace LDAP

/-- The only identifiers the version table accepts, with their
constants. -/
theorem tlsLookup_mem (s : Str) (v : Nat) (h : TLSLookup s = some v) :
    (s = "tls10".toList ∧ v = 769) ∨ (s = "tls11".toList ∧ v = 770)
    ∨ (s = "tls12".toList ∧ v = 771) := by
  unfold TLSLookup at h
  split_ifs at h with h1 h2 h3
  · exact .inl ⟨h1, (Option.some.inj h).symm⟩
  · exact .inr (.inl ⟨h2, (Option.some.inj h).symm⟩)
  · exact .inr (.inr ⟨h3, (Option.some.inj h).symm⟩)

/-- On the members of the version table, byte-lexicographic string
comparison coincides with the numeric order of the protocol
constants — the "enumerated version ordering". -/
theorem strLt_table (s t : Str) (vs vt : Nat)
    (hs : TLSLookup s = some vs) (ht : TLSLookup t = some vt) :
    strLt s t = true ↔ vs < vt := by
  rcases tlsLookup_mem s vs hs with ⟨h1, h2⟩ | ⟨h1, h2⟩ | ⟨h1, h2⟩ <;>
    rcases tlsLookup_mem t vt ht with ⟨h3, h4⟩ | ⟨h3, h4⟩ | ⟨h3, h4⟩ <;>
      subst h1 <;> subst h2 <;> subst h3 <;> subst h4 <;> decide

/-- `NewConfiguration` once the group-filter and certificate checks
are known to pass. -/
theorem newConfiguration_reduced (tmplOk pemOk : Str → Bool) (fd : FieldData)
    (hg : fd.groupfilter = [] ∨ tmplOk fd.groupfilter = true)
    (hc : fd.certificate = [] ∨ pemOk fd.certificate = true) :
    NewConfiguration tmplOk pemOk fd =
      (if fd.tls_min_version = [] then
        .error "failed to get tls_min_version value".toList
      else if (TLSLookup fd.tls_min_version).isNone then
        .error "invalid tls_min_version".toList
      else if fd.tls_max_version = [] then
        .error "failed to get tls_max_version value".toList
      else if (TLSLookup fd.tls_max_version).isNone then
        .error "invalid tls_max_version".toList
      else if strLt fd.tls_max_version fd.tls_min_version then
        .error "tls_max_version must be greater than or equal to tls_min_version".toList
      else
        .ok ⟨strToLower fd.url, fd.userdn, fd.groupdn, fd.groupfilter, fd.groupattr,
             fd.upndomain, strToLower fd.userattr, fd.certificate, fd.insecure_tls,
             fd.starttls, fd.binddn, fd.bindpass, fd.deny_null_bind, fd.discoverdn,
             fd.tls_min_version, fd.tls_max_version⟩) := by
  have h1 : ¬ (fd.groupfilter ≠ [] ∧ tmplOk fd.groupfilter = false) := by
    rcases hg with h | h
    · intro hx; exact hx.1 h
    · intro hx; rw [h] at hx; cases hx.2
  have h2 : ¬ (fd.certificate ≠ [] ∧ pemOk fd.certificate = false) := by
    rcases hc with h | h
    · intro hx; exact hx.1 h
    · intro hx; rw [h] at hx; cases hx.2
  unfold NewConfiguration
  rw [if_neg h1, if_neg h2]

/-- **C8.** With the group-filter and certificate checks passing,
`NewConfiguration` fails when either TLS version field is empty or
absent from the supported-version table, fails when the maximum is
ordered below the minimum under the enumerated version ordering, and
otherwise accepts the configuration with both versions stored. -/
theorem ldap_config_tls_checks (tmplOk pemOk : Str → Bool) (fd : FieldData)
    (hg : fd.groupfilter = [] ∨ tmplOk fd.groupfilter = true)
    (hc : fd.certificate = [] ∨ pemOk fd.certificate = true) :
    ((fd.tls_min_version = [] ∨ TLSLookup fd.tls_min_version = none
      ∨ fd.tls_max_version = [] ∨ TLSLookup fd.tls_max_version = none) →
      ∃ e, NewConfiguration tmplOk pemOk fd = .error e)
    ∧ (∀ m x, TLSLookup fd.tls_min_version = some m →
        TLSLookup fd.tls_max_version = some x →
        (x < m → ∃ e, NewConfiguration tmplOk pemOk fd = .error e)
        ∧ (m ≤ x → ∃ conf, NewConfiguration tmplOk pemOk fd = .ok conf
            ∧ conf.TLSMinVersion = fd.tls_min_version
            ∧ conf.TLSMaxVersion = fd.tls_max_version)) := by
  rw [newConfiguration_reduced tmplOk pemOk fd hg hc]
  constructor
  · intro hbad
    by_cases e1 : fd.tls_min_version = []
    · rw [if_pos e1]; exact ⟨_, rfl⟩
    · rw [if_neg e1]
      by_cases e2 : (TLSLookup fd.tls_min_version).isNone = true
      · rw [if_pos e2]; exact ⟨_, rfl⟩
      · rw [if_neg e2]
        by_cases e3 : fd.tls_max_version = []
        · rw [if_pos e3]; exact ⟨_, rfl⟩
        · rw [if_neg e3]
          by_cases e4 : (TLSLookup fd.tls_max_version).isNone = true
          · rw [if_pos e4]; exact ⟨_, rfl⟩
          · exfalso
            rcases hbad with h | h | h | h
            · exact e1 h
            · exact e2 (by rw [h]; rfl)
            · exact e3 h
            · exact e4 (by rw [h]; rfl)
  · intro m x hm hx
    have e1 : ¬ fd.tls_min_version = [] := by
      rcases tlsLookup_mem _ _ hm with ⟨h, -⟩ | ⟨h, -⟩ | ⟨h, -⟩ <;> rw [h] <;> decide
    have e3 : ¬ fd.tls_max_version = [] := by
      rcases tlsLookup_mem _ _ hx with ⟨h, -⟩ | ⟨h, -⟩ | ⟨h, -⟩ <;> rw [h] <;> decide
    have e2 : ¬ (TLSLookup fd.tls_min_version).isNone = true := by rw [hm]; simp
    have e4 : ¬ (TLSLookup fd.tls_max_version).isNone = true := by rw [hx]; simp
    rw [if_neg e1, if_neg e2, if_neg e3, if_neg e4]
    constructor
    · intro hlt
      rw [if_pos ((strLt_table fd.tls_max_version fd.tls_min_version x m hx hm).mpr hlt)]
      exact ⟨_, rfl⟩
    · intro hle
      have hfalse : ¬ strLt fd.tls_max_version fd.tls_min_version = true := by
        intro hb
        have := (strLt_table fd.tls_max_version fd.tls_min_version x m hx hm).mp hb
        omega
      rw [if_neg hfalse]
      exact ⟨_, rfl, rfl, rfl⟩

/-- Witness for C8 at concrete field data: min tls11 / max tls12 is
accepted with both versions stored; min tls12 / max tls10 is
rejected. -/
theorem ldap_config_tls_checks_witness :
    (∃ conf, NewConfiguration (fun _ => true) (fun _ => true) fdOK = .ok conf
      ∧ conf.TLSMinVersion = "tls11".toList ∧ conf.TLSMaxVersion = "tls12".toList)
    ∧ (∃ e, NewConfiguration (fun _ => true) (fun _ => true) fdBad = .error e) := by
  constructor
  · exact ((ldap_config_tls_checks (fun _ => true) (fun _ => true) fdOK
      (.inl rfl) (.inl rfl)).2 770 771 rfl rfl).2 (by decide)
  · exact ((ldap_config_tls_checks (fun _ => true) (fun _ => true) fdBad
      (.inl rfl) (.inl rfl)).2 771 769 rfl rfl).1 (by decide)

end LDAP

namespace AD

/-- **C4.** `UpdatePassword` fails and issues no modify request when
the search yields zero or several entries (or fails); with exactly one
match it issues the single replace-attribute request against that
entry's DN carrying the UTF-16LE encoding of the quote-wrapped new
password. -/
theorem updatePassword_single_match (env : ADEnv C) (conf : LDAP.Configuration)
    (b f pw : Str) :
    (∀ entries, Search env conf b f = .ok entries → entries.length ≠ 1 →
      (∃ e, (UpdatePassword env conf b f pw).1 = .error e)
      ∧ (UpdatePassword env conf b f pw).2 = [])
    ∧ (∀ entry, Search env conf b f = .ok [entry] →
      ∀ conn, getConnection env conf = .ok conn →
        (UpdatePassword env conf b f pw).2 =
          [⟨entry.dn, [(passwordAttr, [utf16le (quoteWrap pw)])]⟩])
    ∧ (∀ e, Search env conf b f = .error e →
        (UpdatePassword env conf b f pw).1 = .error e
        ∧ (UpdatePassword env conf b f pw).2 = []) := by
  refine ⟨?_, ?_, ?_⟩
  · intro entries hs hne
    rcases entries with - | ⟨e1, - | ⟨e2, t⟩⟩
    · have hres : UpdatePassword env conf b f pw =
          (.error (.single ("password filter of ".toList ++ f
            ++ " doesn't match just one entry".toList)), []) := by
        simp [UpdatePassword, hs]
      exact ⟨⟨_, by rw [hres]⟩, by rw [hres]⟩
    · exact absurd rfl hne
    · have hres : UpdatePassword env conf b f pw =
          (.error (.single ("password filter of ".toList ++ f
            ++ " doesn't match just one entry".toList)), []) := by
        simp [UpdatePassword, hs]
      exact ⟨⟨_, by rw [hres]⟩, by rw [hres]⟩
  · intro entry hs conn hconn
    simp only [UpdatePassword, hs]
    rw [hconn]
    cases hm : env.modifyConn conn
        ⟨entry.dn, [(passwordAttr, [utf16le (quoteWrap pw)])]⟩ <;> simp [hm]
  · intro e hs
    exact ⟨by simp [UpdatePassword, hs], by simp [UpdatePassword, hs]⟩

/-- Witness for C4 at concrete inputs: a search matching two entries
fails with no modify issued; a search matching one entry issues the
single expected request. -/
theorem updatePassword_single_match_witness :
    ((∃ e, (UpdatePassword adEnvTwo adTestConf [] [] "pw".toList).1 = .error e)
      ∧ (UpdatePassword adEnvTwo adTestConf [] [] "pw".toList).2 = [])
    ∧ (UpdatePassword adEnvOne adTestConf [] [] "pw".toList).2 =
        [⟨"cn=a".toList, [(passwordAttr, [utf16le (quoteWrap "pw".toList)])]⟩] := by
  constructor
  · exact (updatePassword_single_match adEnvTwo adTestConf [] [] "pw".toList).1
      [⟨"cn=a".toList⟩, ⟨"cn=b".toList⟩] rfl (by decide)
  · exact (updatePassword_single_match adEnvOne adTestConf [] [] "pw".toList).2.1
      ⟨"cn=a".toList⟩ rfl 5 rfl

/-- The failover loop returns the first successful connection. -/
theorem tryUrls_first_success (env : ADEnv C) (conf : LDAP.Configuration) (conn : C) :
    ∀ (pre : List Str) (u : Str) (post errs : List Str),
      (∀ v ∈ pre, ∃ e, connect env conf v = .error e) →
      connect env conf u = .ok conn →
      tryUrls env conf (pre ++ u :: post) errs = .ok conn := by
  intro pre
  induction pre with
  | nil =>
    intro u post errs _ hu
    simp [tryUrls, hu]
  | cons v t ih =>
    intro u post errs hpre hu
    obtain ⟨e, he⟩ := hpre v (List.mem_cons_self v t)
    rw [show tryUrls env conf (v :: t ++ u :: post) errs
        = tryUrls env conf (t ++ u :: post) (errs ++ [wrapUrlErr v e]) from by
      simp [tryUrls, he]]
    exact ih u post _ (fun w hw => hpre w (List.mem_cons_of_mem v hw)) hu

/-- When every URL fails, the failover loop aggregates one wrapped
error per URL, in order. -/
theorem tryUrls_all_fail (env : ADEnv C) (conf : LDAP.Configuration) :
    ∀ (urls errs : List Str),
      (∀ u ∈ urls, ∃ e, connect env conf u = .error e) →
      tryUrls env conf urls errs =
        .error (errs ++ urls.map fun u => wrapUrlErr u (errOf (connect env conf u))) := by
  intro urls
  induction urls with
  | nil =>
    intro errs _
    simp [tryUrls]
  | cons v t ih =>
    intro errs hall
    obtain ⟨e, he⟩ := hall v (List.mem_cons_self v t)
    rw [show tryUrls env conf (v :: t) errs
        = tryUrls env conf t (errs ++ [wrapUrlErr v e]) from by
      simp [tryUrls, he]]
    rw [ih _ (fun w hw => hall w (List.mem_cons_of_mem v hw))]
    simp [he, errOf]

/-- **C9.** Connection establishment splits the configured URL string
on commas and tries the URLs in order: the first success is returned
without trying further hosts, and if every host fails the error
aggregates each host's wrapped failure; per host, scheme `ldap` dials
plaintext with default port 389 (optionally upgrading via STARTTLS),
scheme `ldaps` dials with implicit TLS and default port 636, and any
other scheme fails. -/
theorem getConnection_failover (env : ADEnv C) (conf : LDAP.Configuration) :
    (∀ (pre : List Str) (u : Str) (post : List Str) (conn : C),
      splitOnSep ',' conf.Url = pre ++ u :: post →
      (∀ v ∈ pre, ∃ e, connect env conf v = .error e) →
      connect env conf u = .ok conn →
      getConnection env conf = .ok conn)
    ∧ ((∀ u ∈ splitOnSep ',' conf.Url, ∃ e, connect env conf u = .error e) →
      getConnection env conf =
        .error ((splitOnSep ',' conf.Url).map
          fun u => wrapUrlErr u (errOf (connect env conf u))))
    ∧ (∀ u sch host, env.parseURL u = .ok ⟨sch, host⟩ →
        env.splitHostPort host = none →
        (sch = "ldap".toList → conf.StartTLS = false →
          connect env conf u = env.dial (joinHostPort host "389".toList))
        ∧ (sch = "ldap".toList → conf.StartTLS = true →
          ∀ conn, env.dial (joinHostPort host "389".toList) = .ok conn →
          ∀ tc, getTLSConfig env.pemAppendOk conf host = .ok tc →
          env.startTLS conn tc = .ok () →
          connect env conf u = .ok conn)
        ∧ (sch = "ldaps".toList →
          ∀ tc, getTLSConfig env.pemAppendOk conf host = .ok tc →
          connect env conf u = env.dialTLS (joinHostPort host "636".toList) tc)
        ∧ (sch ≠ "ldap".toList → sch ≠ "ldaps".toList →
          ∃ e, connect env conf u = .error e)) := by
  refine ⟨?_, ?_, ?_⟩
  · intro pre u post conn hsplit hpre hu
    unfold getConnection
    rw [hsplit]
    exact tryUrls_first_success env conf conn pre u post [] hpre hu
  · intro hall
    unfold getConnection
    rw [tryUrls_all_fail env conf _ [] hall]
    simp
  · intro u sch host hp hsp
    refine ⟨?_, ?_, ?_, ?_⟩
    · intro h1 h2
      simp only [connect, hp, hsp, h1, h2, if_true, Bool.false_eq_true, if_false]
      cases hd : env.dial (joinHostPort host "389".toList) <;> rfl
    · intro h1 h2 conn hd tc htc hst
      simp only [connect, hp, hsp, h1, h2, if_true, Bool.false_eq_true, if_false,
        hd, htc, hst]
    · intro h1 tc htc
      simp [connect, hp, hsp, h1, htc]
    · intro hn1 hn2
      refine ⟨"invalid LDAP scheme in url ".toList ++ joinHostPort host [], ?_⟩
      simp only [connect, hp, hsp]
      rw [if_neg, if_neg]
      · intro hx; exact hn2 hx
      · intro hx; exact hn1 hx

/-- Witness for C9 at concrete inputs: with hosts "bad://x,ldap://h"
the unsupported first scheme is skipped and the second host's
connection is returned; with only "bad://x" the aggregated error is
returned. -/
theorem getConnection_failover_witness :
    getConnection adEnvFailover adConfFailover = .ok 5
    ∧ getConnection adEnvFailover adConfBad =
        .error ((splitOnSep ',' adConfBad.Url).map
          fun u => wrapUrlErr u (errOf (connect adEnvFailover adConfBad u))) := by
  constructor
  · exact (getConnection_failover adEnvFailover adConfFailover).1
      ["bad://x".toList] "ldap://h".toList [] 5 (by decide)
      (by
        intro v hv
        have hv2 : v = "bad://x".toList := by simpa using hv
        subst hv2
        exact ⟨_, rfl⟩)
      rfl
  · exact (getConnection_failover adEnvFailover adConfBad).2.1
      (by
        intro u hu
        have hsplit : splitOnSep ',' adConfBad.Url = ["bad://x".toList] := by decide
        rw [hsplit] at hu
        have hu2 : u = "bad://x".toList := by simpa using hu
        subst hu2
        exact ⟨_, rfl⟩)

end AD

end Vault
